import Mathlib

/-!
Verification development for the drone ground-station link layer
(`src/parser.rs`, `src/protocol.rs`, `src/uart.rs`, `src/telemetry.rs`,
`src/config.rs`, `src/app.rs`).

Modelling conventions, fixed once here:

* Machine integers (`u8`, `u16`, `u32`) are `Nat` with explicit `% 256`
  and explicit upper-bound checks where the source can overflow;
  `i32` is `Int` with explicit range checks in parsing.
* `f32` values that the program only stores and re-emits as raw bytes
  (the packed command packets) are represented by their 32-bit pattern
  as a `Nat`; byte dumps are little-endian, matching `bytemuck::bytes_of`
  on the packed `#[repr(C, packed)]` structs of `src/protocol.rs`.
* `f32` values produced by *text* parsing (`str::parse::<f32>` in
  `src/parser.rs`) are represented by the accepted source text itself:
  only acceptance/rejection of the parse is modelled, never float
  arithmetic, and no claim below depends on a parsed float's value.
* Wall-clock fields (`chrono::Local::now()`, `Instant`) are dropped:
  no claim mentions them.
* Strings are Lean `String`s, but all computation is done through
  structural helpers over `List Char` so that concrete instances reduce
  in the kernel.  Rust's `split`, `strip_prefix`, `trim`, `ends_with`,
  `contains` and `rfind` are reimplemented below with their semantics
  on the ASCII data these claims exercise.
* Mutex acquisition (`.lock()`) is modelled as always succeeding; the
  source silently skips the operation on a poisoned mutex, which no
  claim exercises.
-/

/-! ## String helpers (List Char based, kernel-reducible) -/

/-- Rust `str::split(sep)` for a one-character separator: splits into the
(nonempty) list of segments between occurrences of `sep`. -/
def splitChar (sep : Char) : List Char → List (List Char)
  | [] => [[]]
  | c :: rest =>
    match splitChar sep rest with
    | [] => [[]]
    | g :: gs => if c = sep then [] :: g :: gs else (c :: g) :: gs

/-- Rust `str::strip_prefix`: `some` of the remainder when `pat` is a
prefix, otherwise `none`. -/
def afterPfx (pat cs : List Char) : Option (List Char) :=
  if pat.isPrefixOf cs then some (cs.drop pat.length) else none

def isWsChar (c : Char) : Bool :=
  c = ' ' || c = '\t' || c = '\r' || c = '\n'

def dropWsLeft : List Char → List Char
  | [] => []
  | c :: rest => if isWsChar c then dropWsLeft rest else c :: rest

/-- Rust `str::trim` (on the ASCII whitespace these frames contain). -/
def trimChars (cs : List Char) : List Char :=
  (dropWsLeft (dropWsLeft cs.reverse).reverse)

/-- Rust `str::ends_with`. -/
def endsWithChars (cs pat : List Char) : Bool :=
  pat.reverse.isPrefixOf cs.reverse

/-- Rust `str::contains` (substring occurrence). -/
def containsChars (cs pat : List Char) : Bool :=
  (List.range (cs.length + 1)).any fun i => pat.isPrefixOf (cs.drop i)

/-! ## Rust integer parsing (`str::parse` for `u16`/`u32`/`i32`) -/

def digitsToNat (cs : List Char) : Nat :=
  cs.foldl (fun acc c => 10 * acc + (c.toNat - 48)) 0

/-- Digit-run parsing: at least one character, all ASCII digits. -/
def parseNatCore (cs : List Char) : Option Nat :=
  if cs.isEmpty then none
  else if cs.all Char.isDigit then some (digitsToNat cs) else none

/-- Rust `u16`/`u32::from_str`: optional `+`, digits, range check;
a leading `-` is rejected for unsigned types. -/
def rustParseUnsigned (maxVal : Nat) (s : String) : Option Nat :=
  let body : Option (List Char) :=
    match s.data with
    | '+' :: r => some r
    | '-' :: _ => none
    | r => some r
  match body with
  | none => none
  | some b =>
    match parseNatCore b with
    | none => none
    | some n => if n ≤ maxVal then some n else none

def rustParseU32 (s : String) : Option Nat := rustParseUnsigned 4294967295 s

def rustParseU16 (s : String) : Option Nat := rustParseUnsigned 65535 s

def rustParseI32Pos (r : List Char) : Option Int :=
  match parseNatCore r with
  | none => none
  | some n => if n ≤ 2147483647 then some (n : Int) else none

/-- Rust `i32::from_str`: optional sign, digits, range `[-2^31, 2^31-1]`. -/
def rustParseI32 (s : String) : Option Int :=
  match s.data with
  | '-' :: r =>
    match parseNatCore r with
    | none => none
    | some n => if n ≤ 2147483648 then some (-(n : Int)) else none
  | '+' :: r => rustParseI32Pos r
  | r => rustParseI32Pos r

/-! ## Rust `f32` text parsing — acceptance only (`src/parser.rs` uses
`str::parse::<f32>()`; the grammar is `[+-]?(inf|infinity|nan|
([0-9]+ | [0-9]+ "." [0-9]* | "." [0-9]+) ([eE][+-]?[0-9]+)?)`,
case-insensitive for the words). -/

def stripSignChar : List Char → List Char
  | '+' :: r => r
  | '-' :: r => r
  | r => r

def lowerWordIs (cs : List Char) (w : List Char) : Bool :=
  cs.map Char.toLower == w

/-- Exponent tail: empty, or `e`/`E`, optional sign, one-or-more digits. -/
def expTailOk (cs : List Char) : Bool :=
  match cs with
  | [] => true
  | e :: r =>
    if e = 'e' || e = 'E' then
      let r' := stripSignChar r
      !r'.isEmpty && r'.all Char.isDigit
    else false

/-- Acceptance of Rust's `f32::from_str` grammar. -/
def rustF32Accepts (s : String) : Bool :=
  let body := stripSignChar s.data
  if lowerWordIs body ['i','n','f'] || lowerWordIs body ['i','n','f','i','n','i','t','y']
      || lowerWordIs body ['n','a','n'] then
    true
  else
    let ip := body.takeWhile Char.isDigit
    let r1 := body.dropWhile Char.isDigit
    match r1 with
    | [] => !ip.isEmpty
    | '.' :: r2 =>
      let fp := r2.takeWhile Char.isDigit
      let r3 := r2.dropWhile Char.isDigit
      (!ip.isEmpty || !fp.isEmpty) && expTailOk r3
    | _ => !ip.isEmpty && expTailOk r1

/-- A parsed `f32` field, represented by its accepted source text
(value semantics of floats are out of scope; no claim reads the value). -/
def parseF32 (s : String) : Option String :=
  if rustF32Accepts s then some s else none

/-! ## `src/protocol.rs` — packed packets and hex encoding -/

/-- Little-endian byte dump of one `f32` (given as its 32-bit pattern),
as laid out in the `#[repr(C, packed)]` structs on the x86 host. -/
def bytesOfF32 (b : Nat) : List Nat :=
  [b % 256, b / 256 % 256, b / 65536 % 256, b / 16777216 % 256]

def hexDigits : List Char :=
  ['0','1','2','3','4','5','6','7','8','9','A','B','C','D','E','F']

def hexDigitChar (n : Nat) : Char := hexDigits.getD n '0'

/-- `format!("{:02X}", b)` for each byte, concatenated. -/
def hexCharsOf : List Nat → List Char
  | [] => []
  | b :: bs => hexDigitChar (b / 16 % 16) :: hexDigitChar (b % 16) :: hexCharsOf bs

/-- `ToHex::to_hex` (`src/protocol.rs`): uppercase, two chars per byte,
no separators. -/
def to_hex (bs : List Nat) : String := String.mk (hexCharsOf bs)

structure ThrottlePacket where
  value : Nat
deriving DecidableEq

structure SetpointPacket where
  roll : Nat
  pitch : Nat
  yaw : Nat
deriving DecidableEq

structure HeartBeatPacket where
  base_throttle : Nat
  roll : Nat
  pitch : Nat
  yaw : Nat
deriving DecidableEq

structure PIDTunePacket where
  p : Nat
  i : Nat
  d : Nat
  i_limit : Nat
  pid_limit : Nat
  axis : Nat
deriving DecidableEq

structure MotorThrottlePacket where
  motor1 : Nat
  motor2 : Nat
  motor3 : Nat
  motor4 : Nat
deriving DecidableEq

structure ConfigPacket where
  motor1 : Nat
  motor2 : Nat
  motor3 : Nat
  motor4 : Nat
  roll_kp : Nat
  roll_ki : Nat
  roll_kd : Nat
  roll_i_limit : Nat
  roll_pid_limit : Nat
  pitch_kp : Nat
  pitch_ki : Nat
  pitch_kd : Nat
  pitch_i_limit : Nat
  pitch_pid_limit : Nat
  yaw_kp : Nat
  yaw_ki : Nat
  yaw_kd : Nat
  yaw_i_limit : Nat
  yaw_pid_limit : Nat
deriving DecidableEq

def ThrottlePacket.SIZE : Nat := 4

def SetpointPacket.SIZE : Nat := 12

def HeartBeatPacket.SIZE : Nat := 16

def PIDTunePacket.SIZE : Nat := 21

def MotorThrottlePacket.SIZE : Nat := 16

def ConfigPacket.SIZE : Nat := 76

def ThrottlePacket.bytes (t : ThrottlePacket) : List Nat := bytesOfF32 t.value

def SetpointPacket.bytes (s : SetpointPacket) : List Nat :=
  bytesOfF32 s.roll ++ bytesOfF32 s.pitch ++ bytesOfF32 s.yaw

def HeartBeatPacket.bytes (h : HeartBeatPacket) : List Nat :=
  bytesOfF32 h.base_throttle ++ bytesOfF32 h.roll ++ bytesOfF32 h.pitch ++ bytesOfF32 h.yaw

def PIDTunePacket.bytes (t : PIDTunePacket) : List Nat :=
  bytesOfF32 t.p ++ bytesOfF32 t.i ++ bytesOfF32 t.d ++ bytesOfF32 t.i_limit
    ++ bytesOfF32 t.pid_limit ++ [t.axis % 256]

def MotorThrottlePacket.bytes (m : MotorThrottlePacket) : List Nat :=
  bytesOfF32 m.motor1 ++ bytesOfF32 m.motor2 ++ bytesOfF32 m.motor3 ++ bytesOfF32 m.motor4

def ConfigPacket.bytes (c : ConfigPacket) : List Nat :=
  bytesOfF32 c.motor1 ++ bytesOfF32 c.motor2 ++ bytesOfF32 c.motor3 ++ bytesOfF32 c.motor4
    ++ bytesOfF32 c.roll_kp ++ bytesOfF32 c.roll_ki ++ bytesOfF32 c.roll_kd
    ++ bytesOfF32 c.roll_i_limit ++ bytesOfF32 c.roll_pid_limit
    ++ bytesOfF32 c.pitch_kp ++ bytesOfF32 c.pitch_ki ++ bytesOfF32 c.pitch_kd
    ++ bytesOfF32 c.pitch_i_limit ++ bytesOfF32 c.pitch_pid_limit
    ++ bytesOfF32 c.yaw_kp ++ bytesOfF32 c.yaw_ki ++ bytesOfF32 c.yaw_kd
    ++ bytesOfF32 c.yaw_i_limit ++ bytesOfF32 c.yaw_pid_limit

/-- `CommandType` (`src/protocol.rs`), variants in source order. -/
inductive CommandType where
  | Start
  | Stop
  | EmergencyStop
  | StartManual
  | SetThrottle (t : ThrottlePacket)
  | SetPoint (p : SetpointPacket)
  | TunePID (t : PIDTunePacket)
  | HeartBeat (h : HeartBeatPacket)
  | SetMotorThrottle (m : MotorThrottlePacket)
  | Config (c : ConfigPacket)
  | Calibrate
  | Reset
deriving DecidableEq

/-- `std::mem::discriminant`: variant tag, ignoring payload. -/
def CommandType.discrim : CommandType → Nat
  | .Start => 0
  | .Stop => 1
  | .EmergencyStop => 2
  | .StartManual => 3
  | .SetThrottle _ => 4
  | .SetPoint _ => 5
  | .TunePID _ => 6
  | .HeartBeat _ => 7
  | .SetMotorThrottle _ => 8
  | .Config _ => 9
  | .Calibrate => 10
  | .Reset => 11

/-- `CommandType::get_ascii` (`src/protocol.rs`; `src/app.rs` invokes it
as `to_ascii` at the dequeue site). -/
def CommandType.get_ascii : CommandType → String
  | .Start => "FC:START"
  | .Stop => "FC:STOP"
  | .EmergencyStop => "ES"
  | .StartManual => "FC:MANUAL"
  | .Calibrate => "FC:CALIBRATE"
  | .Reset => "FC:RESET"
  | .SetThrottle t => "ST:" ++ to_hex t.bytes
  | .SetPoint p => "SP:" ++ to_hex p.bytes
  | .HeartBeat h => "HB:" ++ to_hex h.bytes
  | .TunePID t => "TP:" ++ to_hex t.bytes
  | .SetMotorThrottle m => "MB:" ++ to_hex m.bytes
  | .Config c => "CF:" ++ to_hex c.bytes

/-! ## `src/app.rs` — CommandQueue and heartbeat scheduler -/

/-- The queue behind `CommandQueue`: `(destination address, command)`
pairs in FIFO order. -/
abbrev CmdQueue := List (Nat × CommandType)

/-- `CommandQueue::enqueue` (`src/app.rs:36`): retain entries whose
discriminant differs from the new command's, then push to the back. -/
def CommandQueue.enqueue (q : CmdQueue) (address : Nat) (command : CommandType) : CmdQueue :=
  (q.filter fun e => e.2.discrim ≠ command.discrim) ++ [(address, command)]

/-- `CommandQueue::dequeue` (`src/app.rs:49`): pop the front entry,
rendered to its ASCII line; also returns the remaining queue. -/
def CommandQueue.dequeue (q : CmdQueue) : Option (Nat × String) × CmdQueue :=
  match q with
  | [] => (none, [])
  | (addr, cmd) :: rest => (some (addr, cmd.get_ascii), rest)

/-- The state read and written by `heartbeat_system` (`src/app.rs:1069`).
`config_requested` mirrors `DataBuffer.config_requested`;
`config_packet` is the result of
`persistent_settings.to_config_packet()`; the controller fields carry
the f32 bit patterns of `ControllerState`. -/
structure HbState where
  serial_connected : Bool
  uart_sender : Bool
  send_address : String
  throttle : Nat
  roll : Nat
  pitch : Nat
  yaw : Nat
  config_packet : ConfigPacket
  config_requested : Bool
  queue : CmdQueue
deriving DecidableEq

/-- One fired heartbeat tick (`heartbeat_system` on a frame where the
repeating timer just finished): the config-request step, then exactly
one send of either the dequeued command or a synthesized heartbeat.
Returns the new state and the list of `(address, data)` pairs sent to
the UART channel. -/
def heartbeat_tick (st : HbState) : HbState × List (Nat × String) :=
  if st.serial_connected = false then (st, [])
  else
    let (q1, creq1) :=
      if st.config_requested then
        match rustParseU16 st.send_address with
        | some a => (CommandQueue.enqueue st.queue a (.Config st.config_packet), false)
        | none => (st.queue, false)
      else (st.queue, st.config_requested)
    match rustParseU16 st.send_address with
    | some address =>
      if st.uart_sender then
        match CommandQueue.dequeue q1 with
        | (some (cmd_address, cmd_data), q2) =>
          ({ st with queue := q2, config_requested := creq1 }, [(cmd_address, cmd_data)])
        | (none, q2) =>
          ({ st with queue := q2, config_requested := creq1 },
            [(address,
              (CommandType.HeartBeat
                { base_throttle := st.throttle, roll := st.roll,
                  pitch := st.pitch, yaw := st.yaw }).get_ascii)])
      else ({ st with queue := q1, config_requested := creq1 }, [])
    | none => ({ st with queue := q1, config_requested := creq1 }, [])

/-! ## `src/telemetry.rs` — data model and ring buffers -/

/-- `TelemetryData`.  The struct declaration in `src/telemetry.rs` carries
timestamp plus 13 floats; the constructor in `src/parser.rs` additionally
writes `altitude` and `battery_voltage` (a revision skew in the source);
the model carries the union so that the constructor embeds.  Float fields
hold the accepted source text (see header). -/
structure TelemetryData where
  timestamp : Nat
  roll : String
  pitch : String
  yaw : String
  roll_p : String
  roll_i : String
  roll_d : String
  pitch_p : String
  pitch_i : String
  pitch_d : String
  yaw_p : String
  yaw_i : String
  yaw_d : String
  altitude : String
  battery_voltage : String
deriving DecidableEq

/-- `LogMessage` (wall-clock fields dropped). -/
structure LogMessage where
  message : String
deriving DecidableEq

/-- `ReceivedMessage` (`src/telemetry.rs:89`; `time` dropped).
`from` is a Lean keyword, hence `from_addr`. -/
structure ReceivedMessage where
  from_addr : Nat
  length : Nat
  message : String
  rssi : Int
  snr : Int
deriving DecidableEq

/-- `MAX_POINTS` (`src/config.rs:16`). -/
def MAX_POINTS : Nat := 500

/-- `MAX_LOG_MESSAGES` (`src/config.rs:17`). -/
def MAX_LOG_MESSAGES : Nat := 100

/-- `DataBuffer` (`src/telemetry.rs:98`; `start_time` dropped). -/
structure DataBuffer where
  data : List TelemetryData
  logs : List LogMessage
  config_requested : Bool
deriving DecidableEq

def DataBuffer.new : DataBuffer :=
  { data := [], logs := [], config_requested := false }

/-- `DataBuffer::push` (`src/telemetry.rs:123`): evict the oldest record
once at capacity, then append (the overwritten `clock_time` stamp is a
dropped wall-clock field). -/
def DataBuffer.push (buf : DataBuffer) (telem : TelemetryData) : DataBuffer :=
  let d := if MAX_POINTS ≤ buf.data.length then buf.data.tail else buf.data
  { buf with data := d ++ [telem] }

/-- `DataBuffer::push_log` (`src/telemetry.rs:132`). -/
def DataBuffer.push_log (buf : DataBuffer) (message : String) : DataBuffer :=
  let l := if MAX_LOG_MESSAGES ≤ buf.logs.length then buf.logs.tail else buf.logs
  { buf with logs := l ++ [{ message := message }] }

/-- One buffer event: a telemetry record push or a log push (the only
two writers touching the ring buffers in `process_line`). -/
def bufferStep (b : DataBuffer) (e : TelemetryData ⊕ String) : DataBuffer :=
  match e with
  | .inl t => b.push t
  | .inr m => b.push_log m

/-- The telemetry records pushed by an event sequence, in order. -/
def telemEvents (evs : List (TelemetryData ⊕ String)) : List TelemetryData :=
  evs.filterMap fun e => match e with | .inl t => some t | .inr _ => none

/-- The log messages pushed by an event sequence, in order. -/
def logEvents (evs : List (TelemetryData ⊕ String)) : List String :=
  evs.filterMap fun e => match e with | .inl _ => none | .inr m => some m

/-! ## `src/parser.rs` -/

/-- Outcome of running Rust code that can panic (out-of-bounds slice
indexing aborts the thread rather than returning). -/
inductive PanicOr (α : Type) where
  | panics
  | ok (v : α)
deriving DecidableEq

/-- `parse_rcv` (`src/parser.rs:6`).  Field accesses happen in source
order: `parts[i]` is an unchecked index (panic when out of range),
`.parse().ok()?` is an early `None` return. -/
def parse_rcv (line : String) : PanicOr (Option ReceivedMessage) :=
  match afterPfx "+RCV=".data line.data with
  | none => .ok none
  | some rest =>
    let parts : List String := (splitChar ',' rest).map String.mk
    match parts.get? 0 with
    | none => .panics
    | some p0 =>
      match rustParseU32 p0 with
      | none => .ok none
      | some address =>
        match parts.get? 1 with
        | none => .panics
        | some p1 =>
          match rustParseU32 p1 with
          | none => .ok none
          | some length =>
            match parts.get? 2 with
            | none => .panics
            | some p2 =>
              match parts.get? 3 with
              | none => .panics
              | some p3 =>
                match rustParseI32 p3 with
                | none => .ok none
                | some rssi =>
                  match parts.get? 4 with
                  | none => .panics
                  | some p4 =>
                    match rustParseI32 p4 with
                    | none => .ok none
                    | some snr =>
                      .ok (some { from_addr := address, length := length,
                                  message := p2, rssi := rssi, snr := snr })

/-- `parse_telemetry` (`src/parser.rs:28`): colon-separated text format
`TELEM:<14 floats>`; `parts[i]` accesses are guarded by the length check,
each `.parse().ok()?` is an early `None`.  The source writes `0.0` into
the `u32` timestamp field (revision skew); modelled as `0`. -/
def parse_telemetry (line : String) : Option TelemetryData :=
  let parts : List String := (splitChar ':' line.data).map String.mk
  if 15 ≤ parts.length ∧ parts.getD 0 "" = "TELEM" then
    match parseF32 (parts.getD 1 "") with
    | none => none
    | some roll =>
      match parseF32 (parts.getD 2 "") with
      | none => none
      | some pitch =>
        match parseF32 (parts.getD 3 "") with
        | none => none
        | some yaw =>
          match parseF32 (parts.getD 4 "") with
          | none => none
          | some roll_p =>
            match parseF32 (parts.getD 5 "") with
            | none => none
            | some roll_i =>
              match parseF32 (parts.getD 6 "") with
              | none => none
              | some roll_d =>
                match parseF32 (parts.getD 7 "") with
                | none => none
                | some pitch_p =>
                  match parseF32 (parts.getD 8 "") with
                  | none => none
                  | some pitch_i =>
                    match parseF32 (parts.getD 9 "") with
                    | none => none
                    | some pitch_d =>
                      match parseF32 (parts.getD 10 "") with
                      | none => none
                      | some yaw_p =>
                        match parseF32 (parts.getD 11 "") with
                        | none => none
                        | some yaw_i =>
                          match parseF32 (parts.getD 12 "") with
                          | none => none
                          | some yaw_d =>
                            match parseF32 (parts.getD 13 "") with
                            | none => none
                            | some altitude =>
                              match parseF32 (parts.getD 14 "") with
                              | none => none
                              | some battery_voltage =>
                                some { timestamp := 0, roll := roll, pitch := pitch,
                                       yaw := yaw, roll_p := roll_p, roll_i := roll_i,
                                       roll_d := roll_d, pitch_p := pitch_p,
                                       pitch_i := pitch_i, pitch_d := pitch_d,
                                       yaw_p := yaw_p, yaw_i := yaw_i, yaw_d := yaw_d,
                                       altitude := altitude,
                                       battery_voltage := battery_voltage }
  else none

/-- `parse_log` (`src/parser.rs:57`). -/
def parse_log (line : String) : Option String :=
  (afterPfx "LOG:".data line.data).map String.mk

/-- Shape predicate written from the amended C5 claim's words, for the
refinement comparison with `parse_telemetry`: the payload splits on `:`
into at least 15 fields, the first field is `TELEM`, and fields 1–14
are accepted by Rust `f32` parsing. -/
def telemetry_text_shape (line : String) : Bool :=
  let parts : List String := (splitChar ':' line.data).map String.mk
  decide (15 ≤ parts.length) && (parts.getD 0 "" == "TELEM")
    && ([1, 2, 3, 4, 5, 6, 7, 8, 9, 10, 11, 12, 13, 14].all
          fun i => (parseF32 (parts.getD i "")).isSome)

/-! ## `src/uart.rs` — framing, line processing, link initialization -/

def contByte (b : Nat) : Bool := 128 ≤ b && b < 192

/-- `std::str::from_utf8`: decodes a byte run as UTF-8, rejecting the
whole run on any invalid sequence (overlong forms, surrogates,
out-of-range, truncated tails). -/
def utf8Decode? : List Nat → Option (List Char)
  | [] => some []
  | b :: rest =>
    if b < 128 then
      match utf8Decode? rest with
      | some cs => some (Char.ofNat b :: cs)
      | none => none
    else if b < 194 then none
    else if b < 224 then
      match rest with
      | b2 :: rest2 =>
        if contByte b2 then
          match utf8Decode? rest2 with
          | some cs => some (Char.ofNat ((b - 192) * 64 + (b2 - 128)) :: cs)
          | none => none
        else none
      | [] => none
    else if b < 240 then
      match rest with
      | b2 :: b3 :: rest2 =>
        let lo2 := if b = 224 then 160 else 128
        let hi2 := if b = 237 then 160 else 192
        if (lo2 ≤ b2 && b2 < hi2) && contByte b3 then
          match utf8Decode? rest2 with
          | some cs =>
            some (Char.ofNat ((b - 224) * 4096 + (b2 - 128) * 64 + (b3 - 128)) :: cs)
          | none => none
        else none
      | _ => none
    else if b < 245 then
      match rest with
      | b2 :: b3 :: b4 :: rest2 =>
        let lo2 := if b = 240 then 144 else 128
        let hi2 := if b = 244 then 144 else 192
        if (lo2 ≤ b2 && b2 < hi2) && contByte b3 && contByte b4 then
          match utf8Decode? rest2 with
          | some cs =>
            some (Char.ofNat ((b - 240) * 262144 + (b2 - 128) * 4096
                    + (b3 - 128) * 64 + (b4 - 128)) :: cs)
          | none => none
        else none
      | _ => none
    else none

/-- Split off the first line: `some (line-through-newline, remainder)`
when a `'\n'` is present (`buffer.find('\n')` + `drain(..=pos)`). -/
def splitAtNl : List Char → Option (List Char × List Char)
  | [] => none
  | c :: rest =>
    if c = '\n' then some ([c], rest)
    else
      match splitAtNl rest with
      | none => none
      | some (l, r) => some (c :: l, r)

/-- The `while let Some(pos) = buffer.find('\n')` loop of
`process_bytes`: drain every complete line (trimmed, as handed to
`process_line`), return the lines and the remaining buffer.  Fuel is the
buffer length; each iteration consumes at least the newline. -/
def drainAux : Nat → List Char → List String × List Char
  | 0, buf => ([], buf)
  | fuel + 1, buf =>
    match splitAtNl buf with
    | none => ([], buf)
    | some (l, r) =>
      let (ls, rest) := drainAux fuel r
      (String.mk (trimChars l) :: ls, rest)

def drainLines (buf : List Char) : List String × List Char :=
  drainAux buf.length buf

def rcvMarker : List Char := ['+', 'R', 'C', 'V']

/-- Rust `str::rfind("+RCV")`: index of the last occurrence (char index;
the pattern is ASCII so byte and char positions slice identically). -/
def rfindSubstr (hay pat : List Char) : Option Nat :=
  ((List.range (hay.length + 1)).filter fun i => pat.isPrefixOf (hay.drop i)).getLast?

/-- `process_bytes` (`src/uart.rs:116`): append the (UTF-8-valid) chunk,
discard everything before the last `+RCV` when it is not at the start,
then drain complete lines.  Returns the new buffer and the trimmed lines
handed to `process_line`. -/
def process_bytes (buffer : List Char) (bytes : List Nat) : List Char × List String :=
  match utf8Decode? bytes with
  | none => (buffer, [])
  | some s =>
    let buf1 := buffer ++ s
    let buf2 :=
      match rfindSubstr buf1 rcvMarker with
      | some p => if 0 < p then buf1.drop p else buf1
      | none => buf1
    let (lines, rest) := drainLines buf2
    (rest, lines)

/-- `process_line` (`src/uart.rs:138`): envelope parse (panic propagates),
then telemetry, then log; anything else leaves the buffer untouched. -/
def process_line (line : String) (buf : DataBuffer) : PanicOr DataBuffer :=
  match parse_rcv line with
  | .panics => .panics
  | .ok none => .ok buf
  | .ok (some rcv) =>
    match parse_telemetry rcv.message with
    | some telem => .ok (buf.push telem)
    | none =>
      match parse_log rcv.message with
      | some log_msg => .ok (buf.push_log log_msg)
      | none => .ok buf

/-! ### `src/config.rs` constants and the init handshake -/

def LORA_ADDRESS : Nat := 1

def LORA_NETWORK_ID : Nat := 6

def LORA_BAND : Nat := 915000000

def LORA_SPREADING_FACTOR : Nat := 9

def LORA_BANDWIDTH : Nat := 7

def LORA_CODING_RATE : Nat := 1

def LORA_PREAMBLE : Nat := 4

/-- The fixed command sequence of `init_lora_receiver` (`src/uart.rs:157`). -/
def lora_commands : List String :=
  ["AT",
   "AT+ADDRESS=" ++ toString LORA_ADDRESS,
   "AT+NETWORKID=" ++ toString LORA_NETWORK_ID,
   "AT+BAND=" ++ toString LORA_BAND,
   "AT+PARAMETER=" ++ toString LORA_SPREADING_FACTOR ++ ","
     ++ toString LORA_BANDWIDTH ++ "," ++ toString LORA_CODING_RATE ++ ","
     ++ toString LORA_PREAMBLE]

/-- One `port.read` observation inside `wait_for_response`: a byte chunk,
a zero-length read, a timed-out read (both retried), or a fatal read
error.  The 2-second overall timeout is modelled as exhaustion of the
event list. -/
inductive ReadEvent where
  | chunk (bytes : List Nat)
  | zero
  | timedOut
  | fatalErr
deriving DecidableEq

/-- The read loop of `wait_for_response` (`src/uart.rs:189`): accumulate
chunks; once the buffer ends in `\r\n`, an `+ERR=`-prefixed (trimmed)
line fails immediately, a line containing the expected token succeeds,
anything else clears the buffer and keeps waiting. -/
def waitGo (expected : String) : List ReadEvent → List Char → Bool
  | [], _ => false
  | .fatalErr :: _, _ => false
  | .zero :: rest, buf => waitGo expected rest buf
  | .timedOut :: rest, buf => waitGo expected rest buf
  | .chunk bs :: rest, buf =>
    match utf8Decode? bs with
    | none => waitGo expected rest buf
    | some s =>
      let buf1 := buf ++ s
      if endsWithChars buf1 ['\r', '\n'] then
        let line := trimChars buf1
        if "+ERR=".data.isPrefixOf line then false
        else if containsChars line expected.data then true
        else waitGo expected rest []
      else waitGo expected rest buf1

def wait_for_response (events : List ReadEvent) (expected : String) : Bool :=
  waitGo expected events []

/-- The command loop of `init_lora_receiver`: send each command with
`\r\n` appended (writes modelled as succeeding), stop at the first
command that is not acknowledged.  Returns overall success and the list
of lines written to the port, in order. -/
def run_init : List String → List (List ReadEvent) → Bool × List String
  | [], _ => (true, [])
  | cmd :: cmds, scripts =>
    let sent := cmd ++ "\r\n"
    if wait_for_response (scripts.headD []) "+OK" then
      let r := run_init cmds scripts.tail
      (r.1, sent :: r.2)
    else (false, [sent])

/-- `init_lora_receiver` (`src/uart.rs:156`), with the per-command
response events supplied as a script (one event list per command). -/
def init_lora_receiver (scripts : List (List ReadEvent)) : Bool × List String :=
  run_init lora_commands scripts

/-- ASCII bytes of a string (used only to write concrete byte feeds). -/
def strBytes (s : String) : List Nat := s.data.map Char.toNat

/-! ## Helper lemmas -/

theorem headD_eq_getD (l : List (List ReadEvent)) (d : List ReadEvent) :
    l.headD d = l.getD 0 d := by
  cases l <;> rfl

theorem tail_getD (l : List (List ReadEvent)) (i : Nat) (d : List ReadEvent) :
    l.tail.getD i d = l.getD (i + 1) d := by
  cases l <;> rfl

theorem hb_tick_reduce (st : HbState) (a : Nat)
    (hc : st.serial_connected = true) (hs : st.uart_sender = true)
    (ha : rustParseU16 st.send_address = some a) (hq : st.config_requested = false) :
    heartbeat_tick st =
      match st.queue with
      | [] => ({ st with queue := [], config_requested := false },
          [(a, (CommandType.HeartBeat
            { base_throttle := st.throttle, roll := st.roll, pitch := st.pitch,
              yaw := st.yaw }).get_ascii)])
      | e :: rest => ({ st with queue := rest, config_requested := false },
          [(e.1, e.2.get_ascii)]) := by
  unfold heartbeat_tick
  rw [hc, hq, ha]
  simp only [Bool.true_eq_false, if_false, hs, if_true]
  cases h : st.queue with
  | nil => simp [CommandQueue.dequeue, h]
  | cons e rest => simp [CommandQueue.dequeue, h]

/-! ## C1 — emergency-stop preemption -/

/-- C1 counterexample: with three unrelated commands queued,
`enqueue(EmergencyStop)` leaves FOUR entries (the three others plus the
estop at the back), not the single estop entry the claim states; no
`estop_active` flag exists anywhere in the code. -/
theorem C1_estop_counterexample :
    CommandQueue.enqueue
        (CommandQueue.enqueue
          (CommandQueue.enqueue (CommandQueue.enqueue [] 2 .Start) 2 .Stop)
          2 .Calibrate)
        2 .EmergencyStop
      = [(2, .Start), (2, .Stop), (2, .Calibrate), (2, .EmergencyStop)] ∧
    (CommandQueue.enqueue
        (CommandQueue.enqueue
          (CommandQueue.enqueue (CommandQueue.enqueue [] 2 .Start) 2 .Stop)
          2 .Calibrate)
        2 .EmergencyStop).length = 4 := by
  decide

/-- C1 (amended): `enqueue(EmergencyStop)` coalesces by discriminant
exactly like any other command — it removes only previously queued
`EmergencyStop` entries and appends the estop at the back, leaving the
other pending commands in place; `enqueue(Reset)` likewise has no
special effect; and a heartbeat tick transmits the *front* queue entry,
so a queued estop is transmitted only when it reaches the front. -/
theorem C1_estop_coalesces_only :
    (∀ (q : CmdQueue) (a : Nat),
        (∀ e ∈ q, e.2.discrim ≠ CommandType.EmergencyStop.discrim) →
        CommandQueue.enqueue q a .EmergencyStop = q ++ [(a, .EmergencyStop)] ∧
        (CommandQueue.enqueue q a .EmergencyStop).length = q.length + 1) ∧
    (∀ (q : CmdQueue) (a : Nat),
        (∀ e ∈ q, e.2.discrim ≠ CommandType.Reset.discrim) →
        CommandQueue.enqueue q a .Reset = q ++ [(a, .Reset)]) ∧
    (∀ (st : HbState) (a : Nat) (e : Nat × CommandType) (rest : CmdQueue),
        st.serial_connected = true → st.uart_sender = true →
        rustParseU16 st.send_address = some a → st.config_requested = false →
        st.queue = e :: rest →
        (heartbeat_tick st).2 = [(e.1, e.2.get_ascii)] ∧
        (heartbeat_tick st).1.queue = rest) := by
  refine ⟨?_, ?_, ?_⟩
  · intro q a h
    have hf : q.filter (fun e => e.2.discrim ≠ CommandType.EmergencyStop.discrim) = q := by
      rw [List.filter_eq_self]
      intro e he
      simpa using h e he
    constructor
    · rw [CommandQueue.enqueue, hf]
    · rw [CommandQueue.enqueue, hf]
      simp
  · intro q a h
    have hf : q.filter (fun e => e.2.discrim ≠ CommandType.Reset.discrim) = q := by
      rw [List.filter_eq_self]
      intro e he
      simpa using h e he
    rw [CommandQueue.enqueue, hf]
  · intro st a e rest hc hs ha hq hqueue
    rw [hb_tick_reduce st a hc hs ha hq, hqueue]
    exact ⟨rfl, rfl⟩

/-- C1 witness for the amended theorem at a concrete queue and a
concrete connected state with an estop queued behind another command. -/
theorem C1_estop_coalesces_only_witness :
    CommandQueue.enqueue [(2, CommandType.Start)] 7 .EmergencyStop
      = [(2, CommandType.Start), (7, .EmergencyStop)] ∧
    (heartbeat_tick
      { serial_connected := true, uart_sender := true, send_address := "3",
        throttle := 0, roll := 0, pitch := 0, yaw := 0,
        config_packet := ⟨0, 0, 0, 0, 0, 0, 0, 0, 0, 0, 0, 0, 0, 0, 0, 0, 0, 0, 0⟩,
        config_requested := false,
        queue := [(2, .Start), (9, .EmergencyStop)] }).2
      = [(2, CommandType.Start.get_ascii)] :=
  ⟨(C1_estop_coalesces_only.1 [(2, CommandType.Start)] 7 (by decide)).1,
   (C1_estop_coalesces_only.2.2
      { serial_connected := true, uart_sender := true, send_address := "3",
        throttle := 0, roll := 0, pitch := 0, yaw := 0,
        config_packet := ⟨0, 0, 0, 0, 0, 0, 0, 0, 0, 0, 0, 0, 0, 0, 0, 0, 0, 0, 0⟩,
        config_requested := false,
        queue := [(2, .Start), (9, .EmergencyStop)] }
      3 (2, .Start) [(9, .EmergencyStop)]
      (by decide) (by decide) (by decide) (by decide) (by decide)).1⟩

/-! ## C2 — one transmission per connected tick -/

/-- C2 counterexample: a connected state with a sender present but a
send address that does not parse as `u16` makes a tick transmit nothing
at all, even with a command queued — the claim's "whenever the link is
connected, every heartbeat tick makes exactly one transmission" fails. -/
theorem C2_tick_counterexample :
    (heartbeat_tick
      { serial_connected := true, uart_sender := true, send_address := "",
        throttle := 0, roll := 0, pitch := 0, yaw := 0,
        config_packet := ⟨0, 0, 0, 0, 0, 0, 0, 0, 0, 0, 0, 0, 0, 0, 0, 0, 0, 0, 0⟩,
        config_requested := false,
        queue := [(2, .Start)] }).2 = [] ∧
    (heartbeat_tick
      { serial_connected := true, uart_sender := true, send_address := "",
        throttle := 0, roll := 0, pitch := 0, yaw := 0,
        config_packet := ⟨0, 0, 0, 0, 0, 0, 0, 0, 0, 0, 0, 0, 0, 0, 0, 0, 0, 0, 0⟩,
        config_requested := false,
        queue := [(2, .Start)] }).1.queue = [(2, .Start)] := by
  decide

/-- C2 (amended): whenever the link is connected, a sender channel is
present, the configured send address parses as a `u16`, and no config
request is pending, every fired heartbeat tick makes exactly one
transmission: with a non-empty queue it dequeues and transmits the
oldest entry (removing it), otherwise it transmits a `Heartbeat`
carrying the commanded throttle, roll, pitch and yaw. -/
theorem C2_tick_transmits (st : HbState) (a : Nat)
    (hc : st.serial_connected = true) (hs : st.uart_sender = true)
    (ha : rustParseU16 st.send_address = some a) (hq : st.config_requested = false) :
    (heartbeat_tick st).2.length = 1 ∧
    (st.queue = [] →
      (heartbeat_tick st).2 = [(a, (CommandType.HeartBeat
        { base_throttle := st.throttle, roll := st.roll, pitch := st.pitch,
          yaw := st.yaw }).get_ascii)]) ∧
    (∀ e rest, st.queue = e :: rest →
      (heartbeat_tick st).2 = [(e.1, e.2.get_ascii)] ∧
      (heartbeat_tick st).1.queue = rest) := by
  rw [hb_tick_reduce st a hc hs ha hq]
  cases hqueue : st.queue with
  | nil => exact ⟨rfl, fun _ => rfl, fun e rest h => by simp at h⟩
  | cons e rest =>
    refine ⟨rfl, fun h => by simp at h, fun e' rest' h => ?_⟩
    obtain ⟨rfl, rfl⟩ : e' = e ∧ rest' = rest := by
      constructor <;> injection h <;> simp_all
    exact ⟨rfl, rfl⟩

/-- C2 witness at a concrete connected state with one queued command. -/
theorem C2_tick_transmits_witness :
    (heartbeat_tick
      { serial_connected := true, uart_sender := true, send_address := "3",
        throttle := 0, roll := 0, pitch := 0, yaw := 0,
        config_packet := ⟨0, 0, 0, 0, 0, 0, 0, 0, 0, 0, 0, 0, 0, 0, 0, 0, 0, 0, 0⟩,
        config_requested := false,
        queue := [] }).2.length = 1 :=
  (C2_tick_transmits _ 3 (by decide) (by decide) (by decide) (by decide)).1

/-! ## C3 — per-discriminant coalescing -/

/-- C3: every enqueue removes queued entries with the new command's
discriminant and appends the new entry at the back, so discriminant
uniqueness is preserved by every enqueue; in particular two successive
`SetThrottle` enqueues leave exactly the second entry. -/
theorem C3_coalescing :
    (∀ (q : CmdQueue) (a : Nat) (c : CommandType),
        ((q.map fun e => e.2.discrim).Nodup) →
        (((CommandQueue.enqueue q a c).map fun e => e.2.discrim).Nodup)) ∧
    (∀ (q : CmdQueue) (a : Nat) (c : CommandType),
        (CommandQueue.enqueue q a c).getLast? = some (a, c) ∧
        ∀ e ∈ CommandQueue.enqueue q a c,
          e = (a, c) ∨ (e ∈ q ∧ e.2.discrim ≠ c.discrim)) ∧
    (∀ (a : Nat) (x y : ThrottlePacket),
        CommandQueue.enqueue (CommandQueue.enqueue [] a (.SetThrottle x)) a (.SetThrottle y)
          = [(a, .SetThrottle y)]) := by
  refine ⟨?_, ?_, ?_⟩
  · intro q a c h
    rw [CommandQueue.enqueue, List.map_append]
    rw [List.nodup_append]
    refine ⟨h.sublist (List.Sublist.map _ (List.filter_sublist q)), by simp, ?_⟩
    intro d hd
    simp only [List.mem_map, List.mem_filter, decide_not, Bool.not_eq_eq_eq_not,
      Bool.not_true, decide_eq_false_iff_not] at hd
    obtain ⟨e, ⟨_, hne⟩, rfl⟩ := hd
    simpa using fun hdc => hne hdc
  · intro q a c
    constructor
    · rw [CommandQueue.enqueue]
      simp
    · intro e he
      rw [CommandQueue.enqueue, List.mem_append] at he
      rcases he with he | he
      · right
        simp only [List.mem_filter, decide_not, Bool.not_eq_eq_eq_not, Bool.not_true,
          decide_eq_false_iff_not] at he
        exact ⟨he.1, he.2⟩
      · left
        simpa using he
  · intro a x y
    simp [CommandQueue.enqueue, CommandType.discrim]

/-! ## C4 — envelope parsing safety -/

/-- C4: the claim says a line without exactly five comma-separated
fields after `+RCV=` yields no result and parsing never panics; the
code indexes `parts[3]` unchecked, so a three-field line panics the
UART thread.  This theorem evaluates the embedded `parse_rcv` at the
failing input. -/
theorem C4_parse_rcv_short_line_panics :
    parse_rcv "+RCV=0,0,x" = .panics ∧
    parse_rcv "+RCV=1,4" = .panics ∧
    parse_rcv "+RCV=2,5,hello,-40,9"
      = .ok (some { from_addr := 2, length := 5, message := "hello",
                    rssi := -40, snr := 9 }) := by
  decide

/-! ## C5 — telemetry decoding -/

/-- C5 counterexample: the claim says a record is produced only for
`"T:<hex>"` payloads of exact length; the code instead accepts the
colon-separated text format — this payload is not of the form
`T:<anything>` yet decodes to a record. -/
theorem C5_text_telemetry_counterexample :
    (parse_telemetry "TELEM:0:0:0:0:0:0:0:0:0:0:0:0:0:0").isSome = true ∧
    afterPfx ['T', ':'] "TELEM:0:0:0:0:0:0:0:0:0:0:0:0:0:0".data = none := by
  decide

/-- C5 (amended): telemetry payloads are the colon-separated text form
`TELEM:<14 floats>`, not `T:<hex>`; decoding yields a record exactly
when there are at least 15 colon-separated fields, the first is
`TELEM`, and fields 1–14 parse as floats — otherwise no record is
produced (total function, no crash, no default-filled partial decode). -/
theorem C5_text_telemetry_amended :
    ∀ s, (parse_telemetry s).isSome = telemetry_text_shape s := by
  intro s
  rw [parse_telemetry, telemetry_text_shape]
  set parts := (splitChar ':' s.data).map String.mk with hp
  by_cases hA : 15 ≤ parts.length
  · by_cases hB : parts.getD 0 "" = "TELEM"
    · rw [if_pos ⟨hA, hB⟩]
      simp only [hA, hB, decide_True, beq_self_eq_true, Bool.true_and,
        List.all_cons, List.all_nil, Bool.and_true]
      cases h1 : parseF32 (parts.getD 1 "") <;>
        simp only [h1, Option.isSome_some, Option.isSome_none, Bool.true_and, Bool.false_and]
      cases h2 : parseF32 (parts.getD 2 "") <;>
        simp only [h2, Option.isSome_some, Option.isSome_none, Bool.true_and, Bool.false_and]
      cases h3 : parseF32 (parts.getD 3 "") <;>
        simp only [h3, Option.isSome_some, Option.isSome_none, Bool.true_and, Bool.false_and]
      cases h4 : parseF32 (parts.getD 4 "") <;>
        simp only [h4, Option.isSome_some, Option.isSome_none, Bool.true_and, Bool.false_and]
      cases h5 : parseF32 (parts.getD 5 "") <;>
        simp only [h5, Option.isSome_some, Option.isSome_none, Bool.true_and, Bool.false_and]
      cases h6 : parseF32 (parts.getD 6 "") <;>
        simp only [h6, Option.isSome_some, Option.isSome_none, Bool.true_and, Bool.false_and]
      cases h7 : parseF32 (parts.getD 7 "") <;>
        simp only [h7, Option.isSome_some, Option.isSome_none, Bool.true_and, Bool.false_and]
      cases h8 : parseF32 (parts.getD 8 "") <;>
        simp only [h8, Option.isSome_some, Option.isSome_none, Bool.true_and, Bool.false_and]
      cases h9 : parseF32 (parts.getD 9 "") <;>
        simp only [h9, Option.isSome_some, Option.isSome_none, Bool.true_and, Bool.false_and]
      cases h10 : parseF32 (parts.getD 10 "") <;>
        simp only [h10, Option.isSome_some, Option.isSome_none, Bool.true_and, Bool.false_and]
      cases h11 : parseF32 (parts.getD 11 "") <;>
        simp only [h11, Option.isSome_some, Option.isSome_none, Bool.true_and, Bool.false_and]
      cases h12 : parseF32 (parts.getD 12 "") <;>
        simp only [h12, Option.isSome_some, Option.isSome_none, Bool.true_and, Bool.false_and]
      cases h13 : parseF32 (parts.getD 13 "") <;>
        simp only [h13, Option.isSome_some, Option.isSome_none, Bool.true_and, Bool.false_and]
      cases h14 : parseF32 (parts.getD 14 "") <;>
        simp only [h14, Option.isSome_some, Option.isSome_none, Bool.true_and, Bool.false_and]
    · rw [if_neg (by tauto)]
      have hB' : (parts.getD 0 "" == "TELEM") = false := by simpa using hB
      simp only [hB', Bool.false_and, Bool.and_false, Option.isSome_none]
  · rw [if_neg (by tauto)]
    have hA' : decide (15 ≤ parts.length) = false := by simpa using hA
    simp only [hA', Bool.false_and, Option.isSome_none]

/-! ## C6 — deterministic command encoding -/

theorem hexDigitChar_mem (n : Nat) : hexDigitChar n ∈ hexDigits := by
  rw [hexDigitChar]
  by_cases h : n < hexDigits.length
  · rw [List.getD_eq_getElem _ _ h]
    exact List.getElem_mem h
  · rw [List.getD_eq_default _ _ (by omega)]
    decide

theorem hexCharsOf_length (bs : List Nat) : (hexCharsOf bs).length = 2 * bs.length := by
  induction bs with
  | nil => rfl
  | cons b bs ih =>
    simp only [hexCharsOf, List.length_cons, ih]
    ring

theorem hexCharsOf_mem (bs : List Nat) : ∀ c ∈ hexCharsOf bs, c ∈ hexDigits := by
  induction bs with
  | nil => intro c hc; simp [hexCharsOf] at hc
  | cons b bs ih =>
    intro c hc
    rcases hc with _ | ⟨_, hc⟩
    · exact hexDigitChar_mem _
    · rcases hc with _ | ⟨_, hc⟩
      · exact hexDigitChar_mem _
      · exact ih c hc

theorem to_hex_length (bs : List Nat) : (to_hex bs).length = 2 * bs.length :=
  hexCharsOf_length bs

set_option maxHeartbeats 2000000 in
/-- C6: bare commands encode to their literal ASCII tokens,
`EmergencyStop` to the short token `ES` distinct from all others, and
every payload-bearing command to `"<2-letter-tag>:<hex>"` whose hex part
has length `2 × record_size` and consists only of uppercase hex digits. -/
theorem C6_encoding_shape :
    CommandType.get_ascii .Start = "FC:START" ∧
    CommandType.get_ascii .Stop = "FC:STOP" ∧
    CommandType.get_ascii .StartManual = "FC:MANUAL" ∧
    CommandType.get_ascii .Calibrate = "FC:CALIBRATE" ∧
    CommandType.get_ascii .Reset = "FC:RESET" ∧
    CommandType.get_ascii .EmergencyStop = "ES" ∧
    ["FC:START", "FC:STOP", "FC:MANUAL", "FC:CALIBRATE", "FC:RESET", "ES"].Nodup ∧
    (∀ t : ThrottlePacket, ∃ hx : String,
      CommandType.get_ascii (.SetThrottle t) = "ST:" ++ hx ∧
      hx.length = 2 * ThrottlePacket.SIZE ∧ ∀ c ∈ hx.data, c ∈ hexDigits) ∧
    (∀ p : SetpointPacket, ∃ hx : String,
      CommandType.get_ascii (.SetPoint p) = "SP:" ++ hx ∧
      hx.length = 2 * SetpointPacket.SIZE ∧ ∀ c ∈ hx.data, c ∈ hexDigits) ∧
    (∀ h : HeartBeatPacket, ∃ hx : String,
      CommandType.get_ascii (.HeartBeat h) = "HB:" ++ hx ∧
      hx.length = 2 * HeartBeatPacket.SIZE ∧ ∀ c ∈ hx.data, c ∈ hexDigits) ∧
    (∀ t : PIDTunePacket, ∃ hx : String,
      CommandType.get_ascii (.TunePID t) = "TP:" ++ hx ∧
      hx.length = 2 * PIDTunePacket.SIZE ∧ ∀ c ∈ hx.data, c ∈ hexDigits) ∧
    (∀ m : MotorThrottlePacket, ∃ hx : String,
      CommandType.get_ascii (.SetMotorThrottle m) = "MB:" ++ hx ∧
      hx.length = 2 * MotorThrottlePacket.SIZE ∧ ∀ c ∈ hx.data, c ∈ hexDigits) ∧
    (∀ c : ConfigPacket, ∃ hx : String,
      CommandType.get_ascii (.Config c) = "CF:" ++ hx ∧
      hx.length = 2 * ConfigPacket.SIZE ∧ ∀ ch ∈ hx.data, ch ∈ hexDigits) := by
  refine ⟨rfl, rfl, rfl, rfl, rfl, rfl, by decide, ?_, ?_, ?_, ?_, ?_, ?_⟩
  · intro t
    refine ⟨to_hex t.bytes, rfl, ?_, hexCharsOf_mem _⟩
    rw [to_hex_length]
    simp [ThrottlePacket.bytes, ThrottlePacket.SIZE, bytesOfF32]
  · intro p
    refine ⟨to_hex p.bytes, rfl, ?_, hexCharsOf_mem _⟩
    rw [to_hex_length]
    simp [SetpointPacket.bytes, SetpointPacket.SIZE, bytesOfF32]
  · intro h
    refine ⟨to_hex h.bytes, rfl, ?_, hexCharsOf_mem _⟩
    rw [to_hex_length]
    simp [HeartBeatPacket.bytes, HeartBeatPacket.SIZE, bytesOfF32]
  · intro t
    refine ⟨to_hex t.bytes, rfl, ?_, hexCharsOf_mem _⟩
    rw [to_hex_length]
    simp [PIDTunePacket.bytes, PIDTunePacket.SIZE, bytesOfF32]
  · intro m
    refine ⟨to_hex m.bytes, rfl, ?_, hexCharsOf_mem _⟩
    rw [to_hex_length]
    simp [MotorThrottlePacket.bytes, MotorThrottlePacket.SIZE, bytesOfF32]
  · intro c
    refine ⟨to_hex c.bytes, rfl, ?_, hexCharsOf_mem _⟩
    rw [to_hex_length]
    simp [ConfigPacket.bytes, ConfigPacket.SIZE, bytesOfF32]

/-! ## C7 — bounded drop-oldest ring buffers -/

theorem ring_fold {α : Type} (cap : Nat) (hcap : 0 < cap) :
    ∀ (xs q : List α), q.length ≤ cap →
      List.foldl (fun q x => (if cap ≤ q.length then q.tail else q) ++ [x]) q xs
        = (q ++ xs).drop (q.length + xs.length - cap) := by
  intro xs
  induction xs with
  | nil =>
    intro q hq
    have h0 : q.length + List.length ([] : List α) - cap = 0 := by
      simp only [List.length_nil]
      omega
    rw [List.foldl_nil, List.append_nil, h0, List.drop_zero]
  | cons x xs ih =>
    intro q hq
    rw [List.foldl_cons]
    by_cases h : cap ≤ q.length
    · have hlen : q.length = cap := le_antisymm hq h
      have hne : q ≠ [] := by
        intro e
        rw [e] at hlen
        simp only [List.length_nil] at hlen
        omega
      obtain ⟨hd, tl, rfl⟩ := List.exists_cons_of_ne_nil hne
      rw [if_pos h]
      simp only [List.length_cons] at hlen
      have hlen2 : (List.tail (hd :: tl) ++ [x]).length ≤ cap := by
        simp only [List.tail_cons, List.length_append, List.length_cons, List.length_nil]
        omega
      rw [ih _ hlen2]
      simp only [List.tail_cons]
      have e1 : (tl ++ [x]).length + xs.length - cap = xs.length := by
        simp only [List.length_append, List.length_cons, List.length_nil]
        omega
      have e2 : (hd :: tl).length + (x :: xs).length - cap = xs.length + 1 := by
        simp only [List.length_cons]
        omega
      rw [e1, e2, List.append_assoc, List.singleton_append, List.cons_append,
        List.drop_succ_cons]
    · rw [if_neg h]
      have hlen2 : (q ++ [x]).length ≤ cap := by
        simp only [List.length_append, List.length_cons, List.length_nil]
        omega
      rw [ih _ hlen2]
      have e1 : (q ++ [x]).length + xs.length - cap = q.length + (x :: xs).length - cap := by
        simp only [List.length_append, List.length_cons, List.length_nil]
        omega
      rw [e1, List.append_assoc, List.singleton_append]

theorem buffer_fold_proj (evs : List (TelemetryData ⊕ String)) : ∀ (b : DataBuffer),
    (evs.foldl bufferStep b).data
      = List.foldl (fun q t => (if MAX_POINTS ≤ q.length then q.tail else q) ++ [t])
          b.data (telemEvents evs) ∧
    (evs.foldl bufferStep b).logs
      = List.foldl (fun q m => (if MAX_LOG_MESSAGES ≤ q.length then q.tail else q)
            ++ [({ message := m } : LogMessage)])
          b.logs (logEvents evs) := by
  induction evs with
  | nil => intro b; exact ⟨rfl, rfl⟩
  | cons e evs ih =>
    intro b
    cases e with
    | inl t =>
      rw [List.foldl_cons]
      refine ⟨?_, ?_⟩
      · rw [(ih (bufferStep b (.inl t))).1]
        rfl
      · rw [(ih (bufferStep b (.inl t))).2]
        rfl
    | inr m =>
      rw [List.foldl_cons]
      refine ⟨?_, ?_⟩
      · rw [(ih (bufferStep b (.inr m))).1]
        rfl
      · rw [(ih (bufferStep b (.inr m))).2]
        rfl

/-- C7: for every sequence of telemetry and log pushes starting from the
fresh buffer, the telemetry ring holds exactly the most recent
`MAX_POINTS` records (drop-oldest) and the log ring the most recent
`MAX_LOG_MESSAGES` entries, in FIFO order, so both stay within their
configured capacities. -/
theorem C7_ring_buffer_bounds (evs : List (TelemetryData ⊕ String)) :
    (evs.foldl bufferStep DataBuffer.new).data
      = (telemEvents evs).drop ((telemEvents evs).length - MAX_POINTS) ∧
    (evs.foldl bufferStep DataBuffer.new).logs
      = ((logEvents evs).drop ((logEvents evs).length - MAX_LOG_MESSAGES)).map
          (fun m => { message := m }) ∧
    (evs.foldl bufferStep DataBuffer.new).data.length ≤ MAX_POINTS ∧
    (evs.foldl bufferStep DataBuffer.new).logs.length ≤ MAX_LOG_MESSAGES := by
  obtain ⟨hd, hl⟩ := buffer_fold_proj evs DataBuffer.new
  have hdata : (evs.foldl bufferStep DataBuffer.new).data
      = (telemEvents evs).drop ((telemEvents evs).length - MAX_POINTS) := by
    rw [hd]
    have := ring_fold MAX_POINTS (by decide) (telemEvents evs) [] (by simp)
    simpa using this
  have hlogs : (evs.foldl bufferStep DataBuffer.new).logs
      = ((logEvents evs).drop ((logEvents evs).length - MAX_LOG_MESSAGES)).map
          (fun m => { message := m }) := by
    have hnew : DataBuffer.new.logs = ([] : List LogMessage) := rfl
    rw [hl, hnew]
    have hfm : List.foldl (fun q m => (if MAX_LOG_MESSAGES ≤ q.length then q.tail else q)
            ++ [({ message := m } : LogMessage)]) ([] : List LogMessage) (logEvents evs)
        = List.foldl (fun q x => (if MAX_LOG_MESSAGES ≤ q.length then q.tail else q) ++ [x])
            ([] : List LogMessage)
            ((logEvents evs).map fun m => ({ message := m } : LogMessage)) := by
      rw [List.foldl_map]
    rw [hfm]
    have := ring_fold MAX_LOG_MESSAGES (by decide)
      ((logEvents evs).map fun m => ({ message := m } : LogMessage)) [] (by simp)
    simp only [List.nil_append, List.length_nil, Nat.zero_add, List.length_map] at this ⊢
    rw [this, ← List.map_drop]
  refine ⟨hdata, hlogs, ?_, ?_⟩
  · rw [hdata, List.length_drop]
    omega
  · rw [hlogs, List.length_map, List.length_drop]
    omega

/-! ## C8 — garbage recovery in the byte feed -/

theorem getLast?_mem_nat : ∀ (l : List Nat) (p : Nat), l.getLast? = some p → p ∈ l := by
  intro l
  induction l with
  | nil => intro p hp; simp at hp
  | cons a rest ih =>
    intro p hp
    cases rest with
    | nil =>
      simp only [List.getLast?_singleton, Option.some.injEq] at hp
      simp [hp]
    | cons b rest2 =>
      rw [List.getLast?_cons_cons] at hp
      exact List.mem_cons_of_mem a (ih p hp)

theorem sorted_getLast?_max :
    ∀ (l : List Nat), l.Pairwise (· < ·) → ∀ p, l.getLast? = some p → ∀ j ∈ l, j ≤ p := by
  intro l
  induction l with
  | nil => intro _ p hp; simp at hp
  | cons a rest ih =>
    intro hpw p hp j hj
    cases rest with
    | nil =>
      simp only [List.getLast?_singleton, Option.some.injEq] at hp
      simp only [List.mem_singleton] at hj
      omega
    | cons b rest2 =>
      rw [List.getLast?_cons_cons] at hp
      rcases List.mem_cons.mp hj with rfl | hj
      · have hpmem : p ∈ b :: rest2 := getLast?_mem_nat _ p hp
        have := (List.pairwise_cons.mp hpw).1 p hpmem
        omega
      · exact ih (List.pairwise_cons.mp hpw).2 p hp j hj

theorem rfindSubstr_spec (hay pat : List Char) (hne : pat ≠ []) (p : Nat)
    (h : rfindSubstr hay pat = some p) :
    pat.isPrefixOf (hay.drop p) = true ∧
    ∀ j, pat.isPrefixOf (hay.drop j) = true → j ≤ p := by
  rw [rfindSubstr] at h
  have hsorted : ((List.range (hay.length + 1)).filter
      (fun i => pat.isPrefixOf (hay.drop i))).Pairwise (· < ·) :=
    (List.pairwise_lt_range _).filter _
  have hp_mem := getLast?_mem_nat _ p h
  constructor
  · exact (List.mem_filter.mp hp_mem).2
  · intro j hj
    have hj_le : j ≤ hay.length := by
      by_contra hgt
      push_neg at hgt
      have hnil : hay.drop j = [] := List.drop_eq_nil_of_le (by omega)
      rw [hnil] at hj
      cases pat with
      | nil => exact hne rfl
      | cons c cs => simp [List.isPrefixOf] at hj
    have hj_mem : j ∈ (List.range (hay.length + 1)).filter
        (fun i => pat.isPrefixOf (hay.drop i)) :=
      List.mem_filter.mpr ⟨List.mem_range.mpr (by omega), hj⟩
    exact sorted_getLast?_max _ hsorted p h j hj_mem

/-- C8: on each feed, when the accumulated buffer holds the `+RCV`
marker preceded by stray bytes (equivalently, its last occurrence is at
a positive offset), everything before that last occurrence is discarded
before line extraction; consequently one feed carrying a
garbage-prefixed envelope and a later well-formed envelope yields
exactly one parsed envelope — the most recent — even though the earlier
envelope on its own would have parsed. -/
theorem C8_garbage_recovery :
    (∀ (buffer : List Char) (bytes : List Nat) (s : List Char) (p : Nat),
        utf8Decode? bytes = some s →
        rfindSubstr (buffer ++ s) rcvMarker = some p →
        0 < p →
        process_bytes buffer bytes
            = ((drainLines ((buffer ++ s).drop p)).2, (drainLines ((buffer ++ s).drop p)).1) ∧
        rcvMarker.isPrefixOf ((buffer ++ s).drop p) = true ∧
        (∀ j, rcvMarker.isPrefixOf ((buffer ++ s).drop j) = true → j ≤ p)) ∧
    (process_bytes [] (strBytes "garbage+RCV=1,4,T:DEADBEEF,10,5\r\n+RCV=2,5,hello,-40,9\r\n")
        = ([], ["+RCV=2,5,hello,-40,9"]) ∧
     parse_rcv "+RCV=2,5,hello,-40,9"
        = .ok (some { from_addr := 2, length := 5, message := "hello",
                      rssi := -40, snr := 9 }) ∧
     parse_rcv "+RCV=1,4,T:DEADBEEF,10,5"
        = .ok (some { from_addr := 1, length := 4, message := "T:DEADBEEF",
                      rssi := 10, snr := 5 })) := by
  constructor
  · intro buffer bytes s p hdec hfind hp
    refine ⟨?_, (rfindSubstr_spec _ _ (by decide) p hfind).1,
      (rfindSubstr_spec _ _ (by decide) p hfind).2⟩
    simp only [process_bytes, hdec, hfind, if_pos hp]
  · refine ⟨by decide, by decide, by decide⟩

/-- C8 witness: the general clause applied to the concrete two-envelope
feed, with the last marker occurrence at offset 33. -/
theorem C8_garbage_recovery_witness :
    rcvMarker.isPrefixOf
      ((([] : List Char)
          ++ "garbage+RCV=1,4,T:DEADBEEF,10,5\r\n+RCV=2,5,hello,-40,9\r\n".data).drop 33)
      = true :=
  (C8_garbage_recovery.1 []
    (strBytes "garbage+RCV=1,4,T:DEADBEEF,10,5\r\n+RCV=2,5,hello,-40,9\r\n")
    "garbage+RCV=1,4,T:DEADBEEF,10,5\r\n+RCV=2,5,hello,-40,9\r\n".data 33
    (by decide) (by decide) (by decide)).2.1

/-! ## C9 — link initialization handshake -/

/-- C9: initialization sends the five configuration commands in the
fixed order `AT`, address, network id, band, modulation parameters, each
with `\r\n` appended; it succeeds exactly when every command is
acknowledged, aborts at the first unacknowledged command without
sending the later ones, fails when the response script is exhausted
(the 2-second timeout), and fails immediately on a completed line whose
trimmed content starts with `+ERR=`. -/
theorem C9_init_handshake :
    lora_commands
      = ["AT", "AT+ADDRESS=1", "AT+NETWORKID=6", "AT+BAND=915000000",
         "AT+PARAMETER=9,7,1,4"] ∧
    (∀ scripts : List (List ReadEvent),
      (∀ i, i < 5 → wait_for_response (scripts.getD i []) "+OK" = true) →
      init_lora_receiver scripts = (true, lora_commands.map (· ++ "\r\n"))) ∧
    (∀ (scripts : List (List ReadEvent)) (k : Nat), k < 5 →
      (∀ i, i < k → wait_for_response (scripts.getD i []) "+OK" = true) →
      wait_for_response (scripts.getD k []) "+OK" = false →
      init_lora_receiver scripts
        = (false, (lora_commands.take (k + 1)).map (· ++ "\r\n"))) ∧
    wait_for_response [] "+OK" = false ∧
    (∀ (bs : List Nat) (s : List Char) (rest : List ReadEvent),
      utf8Decode? bs = some s →
      endsWithChars s ['\r', '\n'] = true →
      "+ERR=".data.isPrefixOf (trimChars s) = true →
      wait_for_response (.chunk bs :: rest) "+OK" = false) := by
  refine ⟨by decide, ?_, ?_, rfl, ?_⟩
  · intro scripts h
    have h0 := h 0 (by omega)
    have h1 := h 1 (by omega)
    have h2 := h 2 (by omega)
    have h3 := h 3 (by omega)
    have h4 := h 4 (by omega)
    simp only [init_lora_receiver, lora_commands, run_init, headD_eq_getD, tail_getD,
      h0, h1, h2, h3, h4, if_true, List.map]
  · intro scripts k hk hprev hfail
    interval_cases k
    · simp only [init_lora_receiver, lora_commands, run_init, headD_eq_getD, tail_getD,
        hfail, List.take, List.map]
      simp
    · have h0 := hprev 0 (by omega)
      simp only [init_lora_receiver, lora_commands, run_init, headD_eq_getD, tail_getD,
        h0, hfail, if_true, List.take, List.map]
      simp
    · have h0 := hprev 0 (by omega)
      have h1 := hprev 1 (by omega)
      simp only [init_lora_receiver, lora_commands, run_init, headD_eq_getD, tail_getD,
        h0, h1, hfail, if_true, List.take, List.map]
      simp
    · have h0 := hprev 0 (by omega)
      have h1 := hprev 1 (by omega)
      have h2 := hprev 2 (by omega)
      simp only [init_lora_receiver, lora_commands, run_init, headD_eq_getD, tail_getD,
        h0, h1, h2, hfail, if_true, List.take, List.map]
      simp
    · have h0 := hprev 0 (by omega)
      have h1 := hprev 1 (by omega)
      have h2 := hprev 2 (by omega)
      have h3 := hprev 3 (by omega)
      simp only [init_lora_receiver, lora_commands, run_init, headD_eq_getD, tail_getD,
        h0, h1, h2, h3, hfail, if_true, List.take, List.map]
      simp
  · intro bs s rest hdec hend herr
    rw [wait_for_response]
    simp only [waitGo, hdec, List.nil_append, hend, if_true, herr]

/-- C9 witness: the handshake theorem applied to concrete scripts — all
five commands acknowledged; a failure at the second command; and an
`+ERR=` response line. -/
theorem C9_init_handshake_witness :
    init_lora_receiver (List.replicate 5 [.chunk (strBytes "+OK\r\n")])
      = (true, lora_commands.map (· ++ "\r\n")) ∧
    init_lora_receiver [[.chunk (strBytes "+OK\r\n")], [.chunk (strBytes "+ERR=4\r\n")]]
      = (false, (lora_commands.take 2).map (· ++ "\r\n")) ∧
    wait_for_response [.chunk (strBytes "+ERR=4\r\n")] "+OK" = false :=
  ⟨C9_init_handshake.2.1 (List.replicate 5 [.chunk (strBytes "+OK\r\n")])
      (by decide),
   C9_init_handshake.2.2.1 [[.chunk (strBytes "+OK\r\n")], [.chunk (strBytes "+ERR=4\r\n")]]
      1 (by decide) (by decide) (by decide),
   C9_init_handshake.2.2.2.2 (strBytes "+ERR=4\r\n") "+ERR=4\r\n".data []
      (by decide) (by decide) (by decide)⟩

/-! ## C10 — unrecognized payloads leave the buffers untouched -/

/-- C10: for every well-formed `+RCV` envelope whose payload neither
parses as TELEM-format telemetry nor carries the `LOG:` prefix,
`process_line` returns the data buffer completely unchanged — no
telemetry record, no log entry, no error. -/
theorem C10_ignored_payload (line : String) (buf : DataBuffer) (m : ReceivedMessage)
    (h1 : parse_rcv line = .ok (some m))
    (h2 : parse_telemetry m.message = none)
    (h3 : parse_log m.message = none) :
    process_line line buf = .ok buf := by
  simp only [process_line, h1, h2, h3]

/-- C10 witness at a concrete envelope whose payload is plain text. -/
theorem C10_ignored_payload_witness :
    process_line "+RCV=1,5,hello,-40,9" DataBuffer.new = .ok DataBuffer.new :=
  C10_ignored_payload "+RCV=1,5,hello,-40,9" DataBuffer.new
    { from_addr := 1, length := 5, message := "hello", rssi := -40, snr := 9 }
    (by decide) (by decide) (by decide)

/-- C3 witness: the coalescing theorem applied to a concrete queue with
distinct discriminants. -/
theorem C3_coalescing_witness :
    ((CommandQueue.enqueue [(2, CommandType.Start), (3, CommandType.Stop)] 4
        CommandType.Stop).map fun e => e.2.discrim).Nodup :=
  C3_coalescing.1 [(2, CommandType.Start), (3, CommandType.Stop)] 4 CommandType.Stop
    (by decide)
